import Mathlib

set_option maxHeartbeats 1000000
set_option maxRecDepth 16384

/- Shallow embedding of `src/main.py`: a FastAPI endpoint `find_jobs` that
fetches vacancies from the hh.ru API, declares facts into an `experta`
knowledge engine, runs one rule (`job_matching_by_salary_and_location`) and
extracts the derived `AnswerVacancies` facts.

Part 1 is the typed rule layer.  The fact kinds follow the `Fact`
subclasses of `src/main.py` (lines 52-74) with the field types they
annotate.  The run loop of the engine lives in the third-party `experta`
library, whose code is not part of this repository; it is modelled from the
spec (section 4.2): an agenda of matching combinations, each fired exactly
once, re-evaluated after every firing, with a fixed iteration ceiling and
an `EngineError` when the ceiling is exceeded. -/

structure User where
  salaryPrefer : Int
deriving DecidableEq, Repr

structure Vacancy where
  position : String
  company : String
  location : String
  from_salary : Int
  to_salary : Int
deriving DecidableEq, Repr

structure InputLocation where
  inputLocation : String
deriving DecidableEq, Repr

structure AnswerVacancies where
  position : String
  company : String
  location : String
  from_salary : Int
  to_salary : Int
deriving DecidableEq, Repr

/-- The TEST predicate of the rule `job_matching_by_salary_and_location`
(src/main.py lines 87-88):
`salaryPrefer >= from_salary and salaryPrefer <= to_salary and location == inputLocation`. -/
def ruleTest (salaryPrefer from_salary to_salary : Int) (inputLocation location : String) : Bool :=
  decide (salaryPrefer ≥ from_salary) && decide (salaryPrefer ≤ to_salary)
    && (location == inputLocation)

/-- Whether the fact combination (u, l, v) matches the rule: the three
patterns bind all fields as variables (no literal constraints), so a
combination matches exactly when the TEST predicate holds. -/
def ruleMatches (u : User) (l : InputLocation) (v : Vacancy) : Bool :=
  ruleTest u.salaryPrefer v.from_salary v.to_salary l.inputLocation v.location

/-- Action of the rule (src/main.py lines 92-100): the `AnswerVacancies`
fact declared for a matching vacancy, copying its five fields. -/
def answerOf (v : Vacancy) : AnswerVacancies :=
  ⟨v.position, v.company, v.location, v.from_salary, v.to_salary⟩

/-- One typed fact of working memory (the four `Fact` subclasses). -/
inductive EFact where
  | user (u : User)
  | loc (l : InputLocation)
  | vac (v : Vacancy)
  | answer (a : AnswerVacancies)
deriving DecidableEq, Repr

def getUser : EFact → Option User
  | .user u => some u
  | _ => none

def getLoc : EFact → Option InputLocation
  | .loc l => some l
  | _ => none

def getVac : EFact → Option Vacancy
  | .vac v => some v
  | _ => none

def getAnswer : EFact → Option AnswerVacancies
  | .answer a => some a
  | _ => none

/-- Facts of kind `User` in declaration order. -/
def usersOf (wm : List EFact) : List User := wm.filterMap getUser

/-- Facts of kind `InputLocation` in declaration order. -/
def locsOf (wm : List EFact) : List InputLocation := wm.filterMap getLoc

/-- Facts of kind `Vacancy` in declaration order. -/
def vacsOf (wm : List EFact) : List Vacancy := wm.filterMap getVac

/-- Modelled from the spec: the agenda of the engine for the single rule
`job_matching_by_salary_and_location` — every combination of a `User`, an
`InputLocation` and a `Vacancy` fact in working memory that passes the TEST
predicate, each contributing the answer fact its firing would declare.
The nested-loop enumeration follows the spec's description of pattern
matching as a cross-product of per-kind fact lists filtered by the test. -/
def activations (wm : List EFact) : List AnswerVacancies :=
  (usersOf wm).flatMap fun u =>
    (locsOf wm).flatMap fun l =>
      (vacsOf wm).filterMap fun v =>
        if ruleMatches u l v then some (answerOf v) else none

/-- Modelled from the spec: the error the engine reports when its firing
ceiling is exceeded (spec section 4.2 / 7). -/
inductive EngineError where
  | ceilingExceeded
deriving DecidableEq, Repr

/-- Modelled from the spec: a fixed iteration ceiling "well above the
maximum possible distinct activations" of the in-scope use (at most 25
vacancy facts per request, one user and one location fact). -/
def ENGINE_CEILING : Nat := 100

/-- Modelled from the spec: the firing loop of the engine.  At each step the
agenda is re-evaluated from current working memory; the next not-yet-fired
activation (refraction: each activation fires exactly once; since firings
only append facts, the already-fired prefix of the stable agenda is tracked
by its length) declares its answer fact; when no unfired activation
remains the engine is at fixpoint; `fuel` counts remaining firings against
the ceiling and the engine fails with an `EngineError` when it runs out
while activations remain. -/
def fireLoop (fuel : Nat) (wm : List EFact) (fired : Nat) :
    Except EngineError (List EFact) :=
  if h : fired < (activations wm).length then
    match fuel with
    | 0 => .error EngineError.ceilingExceeded
    | fuel' + 1 =>
        fireLoop fuel' (wm ++ [EFact.answer ((activations wm).get ⟨fired, h⟩)]) (fired + 1)
  else
    .ok wm
termination_by fuel

/-- Modelled from the spec: `engine.run()` — fire until fixpoint or until
the ceiling is exceeded, returning the final working memory. -/
def engineRun (wm : List EFact) : Except EngineError (List EFact) :=
  fireLoop ENGINE_CEILING wm 0

/-- The answer facts the run added to working memory (the facts extracted
by the loop at src/main.py lines 171-181 when the initial memory holds no
answer facts). -/
def firedAnswers (wm : List EFact) : Except EngineError (List AnswerVacancies) :=
  (engineRun wm).map fun final => (final.drop wm.length).filterMap getAnswer

/-- Brute-force reference join, following the spec's words: the structural
cross-product of the `User`, `InputLocation` and `Vacancy` fact lists,
filtered by the test predicate, each surviving combination mapped to the
answer fact the rule declares for it. -/
def crossTriples (wm : List EFact) : List (User × InputLocation × Vacancy) :=
  (usersOf wm).flatMap fun u =>
    (locsOf wm).flatMap fun l =>
      (vacsOf wm).map fun v => (u, l, v)

/-- Brute-force reference join (spec section 8, "Join correctness"). -/
def referenceJoin (wm : List EFact) : List AnswerVacancies :=
  ((crossTriples wm).filter fun t => ruleMatches t.1 t.2.1 t.2.2).map
    fun t => answerOf t.2.2

/- Part 2: the `find_jobs` endpoint (src/main.py lines 104-183).  The
endpoint is dynamically typed: the Python variable `salary` is bound to
`request.salary` (line 109) and then REBOUND inside the vacancy loop to the
raw `salary` value of each upstream item (line 151), so the `User` fact
declared at line 165 carries whatever Python value the last item's salary
field held.  Values are therefore modelled by a small dynamic value type. -/

/-- Python values that can reach the `salary` variable of `find_jobs`. -/
inductive PyVal where
  /-- an `int`, e.g. `request.salary` -/
  | vint (n : Int)
  /-- `None` (an item whose `salary` key is `null`) -/
  | vnone
  /-- `{}` — the default of `vacancy.get("salary", {})` when the key is absent -/
  | vemptyDict
  /-- a non-empty salary dict with its `"from"` and `"to"` entries -/
  | vsalaryDict (f t : Option Int)
deriving DecidableEq, Repr

/-- Request body of `/find_jobs` (src/main.py lines 20-22); it has only
`salary` and `text`, no location field. -/
structure JobSearchRequest where
  salary : Int
  text : String
deriving DecidableEq, Repr

/-- Response model (src/main.py lines 25-32). -/
structure VacancyResponse where
  position : String
  company : String
  location : String
  from_salary : Int
  to_salary : Int
  currency : String
  link : String
deriving DecidableEq, Repr

/-- The `salary` value of one upstream vacancy item: the JSON key can be
absent, `null`, or a (non-empty) object with optional `from` / `to`. -/
inductive SalaryField where
  | absent
  | null
  | obj (fromVal toVal : Option Int)
deriving DecidableEq, Repr

/-- One item of the hh.ru response; `name`, `employer.name` and
`area.name` are read with `.get`, so each may be `None`. -/
structure HHItem where
  name : Option String
  employerName : Option String
  areaName : Option String
  salary : SalaryField
deriving DecidableEq, Repr

/-- The decoded upstream JSON: the `items` key (possibly absent). -/
structure HHResponse where
  items : Option (List HHItem)
deriving DecidableEq, Repr

/-- Outcome of the outbound `requests.get` call: either a
`requests.exceptions.RequestException` (transport failure or non-2xx via
`raise_for_status`) or a decoded body. -/
inductive Upstream where
  | fail
  | ok (resp : HHResponse)
deriving DecidableEq, Repr

/-- Python truthiness of the salary value (src/main.py lines 151-153):
`salary.get("from") if salary else None` — `None` and `{}` are falsy, a
non-empty dict is truthy — giving the optional raw bounds. -/
def salaryBounds : SalaryField → Option Int × Option Int
  | .absent => (none, none)
  | .null => (none, none)
  | .obj f t => (f, t)

/-- The Python value of the `salary` variable contributed by one item
(line 151: `salary = vacancy.get("salary", {})`). -/
def pyOfSalaryField : SalaryField → PyVal
  | .absent => .vemptyDict
  | .null => .vnone
  | .obj f t => .vsalaryDict f t

/-- Value of the `salary` variable after the declaration loop: still
`request.salary` if the loop body never ran, otherwise the last item's raw
salary value (the rebinding at line 151 shadows the request value). -/
def lastSalaryVal (req : JobSearchRequest) (items : List HHItem) : PyVal :=
  match items.getLast? with
  | none => .vint req.salary
  | some it => pyOfSalaryField it.salary

/-- `User` fact as actually declared by `find_jobs` (dynamic field value). -/
structure DynUser where
  salaryPrefer : PyVal
deriving DecidableEq, Repr

/-- `InputLocation` fact as declared by `find_jobs`; optional so that the
Python comparison with a possibly-`None` vacancy location is homogeneous. -/
structure DynInputLocation where
  inputLocation : Option String
deriving DecidableEq, Repr

/-- `Vacancy` fact as declared by `find_jobs` (lines 156-162): the string
fields may be `None`; the salary bounds default to `0`. -/
structure DynVacancy where
  position : Option String
  company : Option String
  location : Option String
  from_salary : Int
  to_salary : Int
deriving DecidableEq, Repr

/-- `AnswerVacancies` fact derived by the rule in the dynamic setting. -/
structure DynAnswer where
  position : Option String
  company : Option String
  location : Option String
  from_salary : Int
  to_salary : Int
deriving DecidableEq, Repr

/-- A fact declared by `find_jobs` into the engine. -/
inductive DynFact where
  | user (u : DynUser)
  | loc (l : DynInputLocation)
  | vac (v : DynVacancy)
deriving DecidableEq, Repr

/-- The `Vacancy` fact built from one upstream item (lines 145-162):
missing salary bounds become `0`. -/
def vacFactOf (it : HHItem) : DynVacancy :=
  { position := it.name
    company := it.employerName
    location := it.areaName
    from_salary := ((salaryBounds it.salary).1).getD 0
    to_salary := ((salaryBounds it.salary).2).getD 0 }

/-- Errors that abort the request: the explicit `HTTPException(500)` of
lines 127-129, an uncaught `TypeError` raised by the rule's TEST when the
(shadowed) salary value does not support `>=` against an `int`, and an
uncaught pydantic validation error when a `None` field meets a `str`
response field. -/
inductive FJError where
  | http500
  | typeError
  | validationError
deriving DecidableEq, Repr

/-- Python `x >= n` for a dynamic `x` and an `int` `n`: only an `int`
supports the comparison; `None` and dicts raise `TypeError`. -/
def pyGeInt : PyVal → Int → Except Unit Bool
  | .vint m, n => .ok (decide (m ≥ n))
  | _, _ => .error ()

/-- Python `x <= n` for a dynamic `x` and an `int` `n`. -/
def pyLeInt : PyVal → Int → Except Unit Bool
  | .vint m, n => .ok (decide (m ≤ n))
  | _, _ => .error ()

/-- The rule's TEST (lines 87-88) evaluated on dynamic values with
Python's short-circuiting `and`: a `TypeError` in the first comparison
propagates; `==` between options never raises. -/
def dynTest (sp : PyVal) (fromS toS : Int) (inputLoc loc : Option String) :
    Except Unit Bool := do
  let b1 ← pyGeInt sp fromS
  if b1 then
    let b2 ← pyLeInt sp toS
    if b2 then
      pure (loc == inputLoc)
    else
      pure false
  else
    pure false

/-- Answer fact declared for a matching dynamic vacancy. -/
def dynAnswerOf (v : DynVacancy) : DynAnswer :=
  ⟨v.position, v.company, v.location, v.from_salary, v.to_salary⟩

def getDynUser : DynFact → Option DynUser
  | .user u => some u
  | _ => none

def getDynLoc : DynFact → Option DynInputLocation
  | .loc l => some l
  | _ => none

def getDynVac : DynFact → Option DynVacancy
  | .vac v => some v
  | _ => none

/-- Firings of the rule for one user and one location over the vacancy
facts; the first `TypeError` raised by the TEST aborts everything. -/
def dynFireVacs (u : DynUser) (l : DynInputLocation) :
    List DynVacancy → Except Unit (List DynAnswer)
  | [] => .ok []
  | v :: vs => do
    let b ← dynTest u.salaryPrefer v.from_salary v.to_salary l.inputLocation v.location
    let rest ← dynFireVacs u l vs
    pure (if b then dynAnswerOf v :: rest else rest)

/-- Firings over the location facts. -/
def dynFireLocs (u : DynUser) (vs : List DynVacancy) :
    List DynInputLocation → Except Unit (List DynAnswer)
  | [] => .ok []
  | l :: ls => do
    let here ← dynFireVacs u l vs
    let rest ← dynFireLocs u vs ls
    pure (here ++ rest)

/-- Firings over the user facts. -/
def dynFireUsers (ls : List DynInputLocation) (vs : List DynVacancy) :
    List DynUser → Except Unit (List DynAnswer)
  | [] => .ok []
  | u :: us => do
    let here ← dynFireLocs u vs ls
    let rest ← dynFireUsers ls vs us
    pure (here ++ rest)

/-- All firings of the rule on the declared facts (the dynamic analogue of
the agenda; for this rule set the derived answers trigger nothing, so the
fixpoint's answer set is exactly this list when no TEST raises). -/
def dynActivations (fs : List DynFact) : Except Unit (List DynAnswer) :=
  dynFireUsers (fs.filterMap getDynLoc) (fs.filterMap getDynVac)
    (fs.filterMap getDynUser)

/-- pydantic validation of a `str` response field: `None` is rejected
(`ValidationError`), a string is accepted. -/
def strField : Option String → Except FJError String
  | some s => .ok s
  | none => .error .validationError

/-- One `VacancyResponse` built from an answer fact (lines 173-181):
`currency` is the fixed string `"RUR"`, `link` the empty string. -/
def buildResponse (a : DynAnswer) : Except FJError VacancyResponse := do
  let pos ← strField a.position
  let comp ← strField a.company
  let loc ← strField a.location
  pure ⟨pos, comp, loc, a.from_salary, a.to_salary, "RUR", ""⟩

/-- Observable outcome of one `find_jobs` call: the facts declared into
the engine and the HTTP-level result. -/
structure FJTrace where
  facts : List DynFact
  result : Except FJError (List VacancyResponse)
deriving Repr

/-- Whether the request reaches the fact-declaration phase (a successful
upstream call whose body has a non-empty `items` list; otherwise the
endpoint returns at line 129 or line 138 before declaring anything). -/
def reachesDeclare : Upstream → Bool
  | .fail => false
  | .ok resp =>
    match resp.items with
    | some (_ :: _) => true
    | _ => false

/-- Shallow embedding of the `find_jobs` endpoint (lines 104-183): on
upstream failure reply HTTP 500 with no fact declared; on an absent or
empty `items` list return `[]`; otherwise declare one `Vacancy` fact per
item, then the `User` fact (with the shadowed `salary` variable) and the
fixed `InputLocation` fact, run the engine and map the answer facts to
response records. -/
def findJobsTrace (req : JobSearchRequest) (up : Upstream) : FJTrace :=
  match up with
  | .fail => ⟨[], .error .http500⟩
  | .ok resp =>
    match resp.items with
    | none => ⟨[], .ok []⟩
    | some [] => ⟨[], .ok []⟩
    | some (it0 :: rest) =>
      let items := it0 :: rest
      let facts := items.map (fun it => DynFact.vac (vacFactOf it))
        ++ [DynFact.user ⟨lastSalaryVal req items⟩,
            DynFact.loc ⟨some "Москва"⟩]
      let result : Except FJError (List VacancyResponse) :=
        match dynActivations facts with
        | .error _ => .error .typeError
        | .ok answers =>
          match answers.mapM buildResponse with
          | .error e => .error e
          | .ok rs => .ok rs
      ⟨facts, result⟩

/-- Boolean check used to state claims about `InputLocation` facts: every
declared location fact carries `"Москва"`. -/
def locFactOk : DynFact → Bool
  | .loc l => l.inputLocation == some "Москва"
  | _ => true

def isLocFact : DynFact → Bool
  | .loc _ => true
  | _ => false

/-- Every response of a successful result satisfies `p` (an error result
passes vacuously). -/
def resultAll (p : VacancyResponse → Bool) :
    Except FJError (List VacancyResponse) → Bool
  | .error _ => true
  | .ok rs => rs.all p

/-- Check on `buildResponse`: when it succeeds, currency is `"RUR"` and
the link is empty. -/
def buildRespConstOk (a : DynAnswer) : Bool :=
  match buildResponse a with
  | .error _ => true
  | .ok r => r.currency == "RUR" && r.link == ""

/-- Spec section 8 scenario: salary preference 150000, location Москва,
three vacancies of which only the first is in range and in Москва. -/
def scenarioWM : List EFact :=
  [EFact.user ⟨150000⟩, EFact.loc ⟨"Москва"⟩,
   EFact.vac ⟨"Разработчик", "А", "Москва", 100000, 200000⟩,
   EFact.vac ⟨"Аналитик", "Б", "Москва", 100000, 140000⟩,
   EFact.vac ⟨"Тестировщик", "В", "СПб", 100000, 200000⟩]

/-- A working memory with more activations (101) than the ceiling. -/
def ceilingWM : List EFact :=
  EFact.user ⟨0⟩ :: EFact.loc ⟨"M"⟩ :: List.replicate 101 (EFact.vac ⟨"p", "c", "M", 0, 0⟩)

/- Helper lemmas about the engine loop and the join. -/

theorem usersOf_append_answer (wm : List EFact) (a : AnswerVacancies) :
    usersOf (wm ++ [EFact.answer a]) = usersOf wm := by
  simp [usersOf, List.filterMap_append, getUser]

theorem locsOf_append_answer (wm : List EFact) (a : AnswerVacancies) :
    locsOf (wm ++ [EFact.answer a]) = locsOf wm := by
  simp [locsOf, List.filterMap_append, getLoc]

theorem vacsOf_append_answer (wm : List EFact) (a : AnswerVacancies) :
    vacsOf (wm ++ [EFact.answer a]) = vacsOf wm := by
  simp [vacsOf, List.filterMap_append, getVac]

theorem activations_append_answer (wm : List EFact) (a : AnswerVacancies) :
    activations (wm ++ [EFact.answer a]) = activations wm := by
  unfold activations
  rw [usersOf_append_answer, locsOf_append_answer, vacsOf_append_answer]

theorem fireLoop_ok (fuel : Nat) :
    ∀ (wm : List EFact) (fired : Nat),
      (activations wm).length - fired ≤ fuel →
      fireLoop fuel wm fired =
        .ok (wm ++ ((activations wm).drop fired).map EFact.answer) := by
  induction fuel with
  | zero =>
      intro wm fired h
      have hf : ¬ fired < (activations wm).length := by omega
      rw [fireLoop, dif_neg hf,
        List.drop_eq_nil_of_le (by omega), List.map_nil, List.append_nil]
  | succ fuel ih =>
      intro wm fired h
      rw [fireLoop]
      by_cases hf : fired < (activations wm).length
      · rw [dif_pos hf]
        have hlen : (activations (wm ++ [EFact.answer ((activations wm).get ⟨fired, hf⟩)])).length
            - (fired + 1) ≤ fuel := by
          rw [activations_append_answer]; omega
        show fireLoop fuel (wm ++ [EFact.answer ((activations wm).get ⟨fired, hf⟩)]) (fired + 1) = _
        rw [ih _ _ hlen, activations_append_answer, List.append_assoc]
        have hdrop : (activations wm).drop fired =
            (activations wm)[fired] :: (activations wm).drop (fired + 1) :=
          List.drop_eq_getElem_cons hf
        rw [hdrop]
        rfl
      · rw [dif_neg hf,
          List.drop_eq_nil_of_le (by omega), List.map_nil, List.append_nil]

theorem fireLoop_err (fuel : Nat) :
    ∀ (wm : List EFact) (fired : Nat),
      fuel < (activations wm).length - fired →
      fireLoop fuel wm fired = .error EngineError.ceilingExceeded := by
  induction fuel with
  | zero =>
      intro wm fired h
      have hf : fired < (activations wm).length := by omega
      rw [fireLoop, dif_pos hf]
  | succ fuel ih =>
      intro wm fired h
      have hf : fired < (activations wm).length := by omega
      rw [fireLoop, dif_pos hf]
      exact ih _ _ (by rw [activations_append_answer]; omega)

theorem vj_filterMap_getAnswer_map (l : List AnswerVacancies) :
    List.filterMap getAnswer (List.map EFact.answer l) = l := by
  induction l with
  | nil => rfl
  | cons a l ih => simp [List.filterMap_cons, getAnswer, ih]

theorem firedAnswers_ok (wm : List EFact)
    (h : (activations wm).length ≤ ENGINE_CEILING) :
    firedAnswers wm = .ok (activations wm) := by
  unfold firedAnswers engineRun
  rw [fireLoop_ok ENGINE_CEILING wm 0 (by omega)]
  simp only [Except.map, List.drop_zero, List.drop_left]
  rw [vj_filterMap_getAnswer_map]

theorem firedAnswers_err (wm : List EFact)
    (h : ENGINE_CEILING < (activations wm).length) :
    firedAnswers wm = .error EngineError.ceilingExceeded := by
  unfold firedAnswers engineRun
  rw [fireLoop_err ENGINE_CEILING wm 0 (by omega)]
  rfl

theorem vj_filter_flatMap {α β : Type} (l : List α) (f : α → List β) (p : β → Bool) :
    (l.flatMap f).filter p = l.flatMap fun a => (f a).filter p := by
  induction l with
  | nil => rfl
  | cons a l ih => simp [List.flatMap_cons, List.filter_append, ih]

theorem vj_map_flatMap {α β γ : Type} (l : List α) (f : α → List β) (g : β → γ) :
    (l.flatMap f).map g = l.flatMap fun a => (f a).map g := by
  induction l with
  | nil => rfl
  | cons a l ih => simp [List.flatMap_cons, ih]

theorem vj_filterMap_ite {α β : Type} (l : List α) (p : α → Bool) (f : α → β) :
    (l.filterMap fun a => if p a then some (f a) else none) = (l.filter p).map f := by
  induction l with
  | nil => rfl
  | cons a l ih =>
      by_cases hp : p a
      · simp [List.filterMap_cons, List.filter_cons, hp, ih]
      · simp [List.filterMap_cons, List.filter_cons, hp, ih]

theorem vj_flatMap_ext {α β : Type} (l : List α) (f g : α → List β)
    (h : ∀ a, f a = g a) : l.flatMap f = l.flatMap g := by
  induction l with
  | nil => rfl
  | cons a l ih => simp [List.flatMap_cons, h a, ih]

/-- The engine's agenda coincides with the brute-force reference join. -/
theorem activations_eq_referenceJoin (wm : List EFact) :
    activations wm = referenceJoin wm := by
  unfold activations referenceJoin crossTriples
  rw [vj_filter_flatMap, vj_map_flatMap]
  apply vj_flatMap_ext
  intro u
  rw [vj_filter_flatMap, vj_map_flatMap]
  apply vj_flatMap_ext
  intro l
  rw [vj_filterMap_ite, List.filter_map, List.map_map]
  rfl

/-- The agenda is permutation-invariant up to permutation: permuting the
declared facts permutes the activations. -/
theorem activations_perm {wm wm' : List EFact} (h : wm.Perm wm') :
    (activations wm).Perm (activations wm') := by
  have hu : (usersOf wm).Perm (usersOf wm') := h.filterMap getUser
  have hl : (locsOf wm).Perm (locsOf wm') := h.filterMap getLoc
  have hv : (vacsOf wm).Perm (vacsOf wm') := h.filterMap getVac
  unfold activations
  refine (hu.flatMap_right _).trans (List.Perm.flatMap_left _ fun u _ => ?_)
  refine (hl.flatMap_right _).trans (List.Perm.flatMap_left _ fun l _ => ?_)
  exact hv.filterMap _

/- Helper lemmas about the dynamic (`find_jobs`) layer. -/

theorem vac_facts_filterMap_user (items : List HHItem) :
    (items.map fun it => DynFact.vac (vacFactOf it)).filterMap getDynUser = [] := by
  induction items with
  | nil => rfl
  | cons it items ih => simp [List.filterMap_cons, getDynUser, ih]

theorem vac_facts_filterMap_loc (items : List HHItem) :
    (items.map fun it => DynFact.vac (vacFactOf it)).filterMap getDynLoc = [] := by
  induction items with
  | nil => rfl
  | cons it items ih => simp [List.filterMap_cons, getDynLoc, ih]

theorem vac_facts_filterMap_vac (items : List HHItem) :
    (items.map fun it => DynFact.vac (vacFactOf it)).filterMap getDynVac =
      items.map vacFactOf := by
  induction items with
  | nil => rfl
  | cons it items ih => simp [List.filterMap_cons, getDynVac, ih]

/-- The shadowed salary value is never an `int`: `>=` against an `int`
raises `TypeError` for every possible raw salary value. -/
theorem pyGeInt_pyOfSalaryField (s : SalaryField) (n : Int) :
    pyGeInt (pyOfSalaryField s) n = .error () := by
  cases s <;> rfl

theorem dynFireVacs_err (u : DynUser) (l : DynInputLocation) (v : DynVacancy)
    (vs : List DynVacancy) (h : ∀ n, pyGeInt u.salaryPrefer n = .error ()) :
    dynFireVacs u l (v :: vs) = .error () := by
  have ht : dynTest u.salaryPrefer v.from_salary v.to_salary l.inputLocation v.location
      = .error () := by
    unfold dynTest
    rw [h]
    rfl
  unfold dynFireVacs
  rw [ht]
  rfl

theorem dynFireLocs_err (u : DynUser) (vs : List DynVacancy) (l : DynInputLocation)
    (ls : List DynInputLocation) (h : dynFireVacs u l vs = .error ()) :
    dynFireLocs u vs (l :: ls) = .error () := by
  unfold dynFireLocs
  rw [h]
  rfl

theorem dynFireUsers_err (ls : List DynInputLocation) (vs : List DynVacancy)
    (u : DynUser) (us : List DynUser) (h : dynFireLocs u vs ls = .error ()) :
    dynFireUsers ls vs (u :: us) = .error () := by
  unfold dynFireUsers
  rw [h]
  rfl

/-- The facts `find_jobs` declares on a successful upstream call with a
non-empty `items` list. -/
theorem findJobs_facts (req : JobSearchRequest) (it0 : HHItem) (rest : List HHItem) :
    (findJobsTrace req (.ok ⟨some (it0 :: rest)⟩)).facts =
      (it0 :: rest).map (fun it => DynFact.vac (vacFactOf it))
        ++ [DynFact.user ⟨lastSalaryVal req (it0 :: rest)⟩,
            DynFact.loc ⟨some "Москва"⟩] := rfl

/-- On every successful upstream call with a non-empty `items` list, the
rule's TEST compares the shadowed (non-`int`) salary value with an `int`,
raising `TypeError`: the endpoint errors instead of returning a list. -/
theorem findJobs_nonempty_result (req : JobSearchRequest) (it0 : HHItem)
    (rest : List HHItem) :
    (findJobsTrace req (.ok ⟨some (it0 :: rest)⟩)).result = .error .typeError := by
  have hsal : ∃ s, lastSalaryVal req (it0 :: rest) = pyOfSalaryField s := by
    unfold lastSalaryVal
    cases hl : (it0 :: rest).getLast? with
    | none => simp at hl
    | some it => exact ⟨it.salary, rfl⟩
  obtain ⟨s, hs⟩ := hsal
  have hact : dynActivations ((it0 :: rest).map (fun it => DynFact.vac (vacFactOf it))
      ++ [DynFact.user ⟨lastSalaryVal req (it0 :: rest)⟩,
          DynFact.loc ⟨some "Москва"⟩]) = .error () := by
    unfold dynActivations
    rw [List.filterMap_append, List.filterMap_append, List.filterMap_append,
      vac_facts_filterMap_user, vac_facts_filterMap_loc, vac_facts_filterMap_vac]
    show dynFireUsers ([] ++ [⟨some "Москва"⟩]) ((it0 :: rest).map vacFactOf ++ [])
      ([] ++ [⟨lastSalaryVal req (it0 :: rest)⟩]) = .error ()
    rw [List.nil_append, List.nil_append, List.append_nil, List.map_cons]
    apply dynFireUsers_err
    apply dynFireLocs_err
    apply dynFireVacs_err
    intro n
    rw [hs]
    exact pyGeInt_pyOfSalaryField s n
  show (match dynActivations ((it0 :: rest).map (fun it => DynFact.vac (vacFactOf it))
      ++ [DynFact.user ⟨lastSalaryVal req (it0 :: rest)⟩,
          DynFact.loc ⟨some "Москва"⟩]) with
    | .error _ => Except.error FJError.typeError
    | .ok answers =>
      match answers.mapM buildResponse with
      | .error e => Except.error e
      | .ok rs => Except.ok rs) = Except.error FJError.typeError
  rw [hact]

theorem vac_facts_all_locFactOk (items : List HHItem) :
    (items.map fun it => DynFact.vac (vacFactOf it)).all locFactOk = true := by
  induction items with
  | nil => rfl
  | cons it items ih => simp [locFactOk, ih]

theorem vac_facts_countP_isLocFact (items : List HHItem) :
    (items.map fun it => DynFact.vac (vacFactOf it)).countP isLocFact = 0 := by
  induction items with
  | nil => rfl
  | cons it items ih => simp [List.countP_cons, isLocFact, ih]

/- Claim theorems. -/

/-- Claim C1 (code bug): `find_jobs` is meant to declare the `User` fact
with `salaryPrefer = request.salary`, but the Python variable `salary` is
rebound inside the vacancy loop, so on the request `{salary: 150000}` with
one upstream item whose salary object is `{from: 100000, to: 200000}` the
single declared `User` fact carries that raw salary dict — not the `int`
150000 — and the subsequent TEST evaluation raises `TypeError`, so the
endpoint errors instead of answering. -/
theorem c1_user_fact_salary_shadowed :
    ((findJobsTrace ⟨150000, "python"⟩
        (.ok ⟨some [⟨some "Dev", some "Acme", some "Москва",
          SalaryField.obj (some 100000) (some 200000)⟩]⟩)).facts.filterMap getDynUser)
      = [⟨PyVal.vsalaryDict (some 100000) (some 200000)⟩] ∧
    PyVal.vsalaryDict (some 100000) (some 200000) ≠ PyVal.vint 150000 ∧
    (findJobsTrace ⟨150000, "python"⟩
        (.ok ⟨some [⟨some "Dev", some "Acme", some "Москва",
          SalaryField.obj (some 100000) (some 200000)⟩]⟩)).result
      = .error .typeError := by
  refine ⟨rfl, by decide, ?_⟩
  exact findJobs_nonempty_result _ _ _

/-- Claim C2: for every working memory the engine completes on, the rule
`job_matching_by_salary_and_location` fires exactly for the combinations of
`User`, `InputLocation` and `Vacancy` facts satisfying the salary-range and
location test, each firing declaring one `AnswerVacancies` fact copying the
vacancy's fields, so the run's answer facts equal the brute-force reference
join of the three fact lists. -/
theorem c2_engine_answers_eq_reference_join (wm : List EFact)
    (h : (activations wm).length ≤ ENGINE_CEILING) :
    firedAnswers wm = .ok (referenceJoin wm) := by
  rw [firedAnswers_ok wm h, activations_eq_referenceJoin]

/-- Witness for C2 at the spec's scenario working memory. -/
theorem c2_witness :
    (activations scenarioWM).length ≤ ENGINE_CEILING ∧
    firedAnswers scenarioWM = .ok (referenceJoin scenarioWM) :=
  ⟨by decide, c2_engine_answers_eq_reference_join scenarioWM (by decide)⟩

/-- Claim C3 counterexample: the claim as stated fails for an empty salary
range — the vacancy has `from_salary = 200000 > to_salary = 100000`,
location equal to the input location, and a `salaryPrefer` exactly equal to
`from_salary` does NOT match. -/
theorem c3_counterexample :
    ruleMatches ⟨200000⟩ ⟨"Москва"⟩ ⟨"p", "c", "Москва", 200000, 100000⟩ = false := by
  decide

/-- Claim C3 (amended): for a vacancy whose location equals the input
location, provided `from_salary ≤ to_salary`, a `salaryPrefer` exactly
equal to either bound matches the rule; one unit below `from_salary` or
above `to_salary` never matches. -/
theorem c3_inclusive_bounds (l : InputLocation) (v : Vacancy)
    (hloc : v.location = l.inputLocation) :
    (v.from_salary ≤ v.to_salary →
      ruleMatches ⟨v.from_salary⟩ l v = true ∧
      ruleMatches ⟨v.to_salary⟩ l v = true) ∧
    ruleMatches ⟨v.from_salary - 1⟩ l v = false ∧
    ruleMatches ⟨v.to_salary + 1⟩ l v = false := by
  refine ⟨fun hr => ⟨?_, ?_⟩, ?_, ?_⟩ <;>
    simp [ruleMatches, ruleTest, hloc] <;> omega

/-- Witness for C3's amended theorem at a concrete in-range vacancy. -/
theorem c3_witness :
    ruleMatches ⟨100000⟩ ⟨"Москва"⟩ ⟨"p", "c", "Москва", 100000, 200000⟩ = true ∧
    ruleMatches ⟨200000⟩ ⟨"Москва"⟩ ⟨"p", "c", "Москва", 100000, 200000⟩ = true ∧
    ruleMatches ⟨99999⟩ ⟨"Москва"⟩ ⟨"p", "c", "Москва", 100000, 200000⟩ = false ∧
    ruleMatches ⟨200001⟩ ⟨"Москва"⟩ ⟨"p", "c", "Москва", 100000, 200000⟩ = false := by
  have h := c3_inclusive_bounds ⟨"Москва"⟩ ⟨"p", "c", "Москва", 100000, 200000⟩ rfl
  exact ⟨(h.1 (by decide)).1, (h.1 (by decide)).2, h.2.1, h.2.2⟩

/-- Claim C4: a missing salary bound (`None`, or the whole salary object
absent or `null`) becomes `0` in the `Vacancy` fact `find_jobs` declares,
and that fact is among the declared facts for every item of the upstream
`items` list. -/
theorem c4_missing_salary_bound_is_zero (it : HHItem) :
    ((salaryBounds it.salary).1 = none → (vacFactOf it).from_salary = 0) ∧
    ((salaryBounds it.salary).2 = none → (vacFactOf it).to_salary = 0) ∧
    (∀ (req : JobSearchRequest) (items : List HHItem), it ∈ items →
      DynFact.vac (vacFactOf it) ∈
        (findJobsTrace req (.ok ⟨some items⟩)).facts) := by
  refine ⟨fun h => ?_, fun h => ?_, fun req items hmem => ?_⟩
  · simp [vacFactOf, h]
  · simp [vacFactOf, h]
  · cases items with
    | nil => simp at hmem
    | cons it0 rest =>
      show DynFact.vac (vacFactOf it) ∈
        (it0 :: rest).map (fun it => DynFact.vac (vacFactOf it))
          ++ [DynFact.user ⟨lastSalaryVal req (it0 :: rest)⟩,
              DynFact.loc ⟨some "Москва"⟩]
      exact List.mem_append_left _ (List.mem_map_of_mem _ hmem)

/-- Witness for C4 at an item whose salary key is `null`. -/
theorem c4_witness :
    (vacFactOf ⟨some "Dev", some "Acme", some "Москва", SalaryField.null⟩).from_salary = 0 ∧
    (vacFactOf ⟨some "Dev", some "Acme", some "Москва", SalaryField.null⟩).to_salary = 0 ∧
    DynFact.vac (vacFactOf ⟨some "Dev", some "Acme", some "Москва", SalaryField.null⟩) ∈
      (findJobsTrace ⟨1, ""⟩
        (.ok ⟨some [⟨some "Dev", some "Acme", some "Москва", SalaryField.null⟩]⟩)).facts := by
  have h := c4_missing_salary_bound_is_zero
    ⟨some "Dev", some "Acme", some "Москва", SalaryField.null⟩
  exact ⟨h.1 rfl, h.2.1 rfl, h.2.2 ⟨1, ""⟩ _ (by simp)⟩

/-- Claim C5: the engine caps its rule-firing iterations at the fixed
ceiling and, when more firings than the ceiling would be needed, fails
with an `EngineError` instead of looping or silently truncating. -/
theorem c5_ceiling_engine_error (wm : List EFact)
    (h : ENGINE_CEILING < (activations wm).length) :
    firedAnswers wm = .error EngineError.ceilingExceeded :=
  firedAnswers_err wm h

/-- Witness for C5 at a working memory with 101 activations. -/
theorem c5_witness :
    ENGINE_CEILING < (activations ceilingWM).length ∧
    firedAnswers ceilingWM = .error EngineError.ceilingExceeded :=
  ⟨by decide, c5_ceiling_engine_error ceilingWM (by decide)⟩

/-- Claim C6: declaring a second fact with identical kind and field values
keeps both copies in working memory (no deduplication), and the rule fires
once per duplicate, producing two independent answer facts. -/
theorem c6_duplicate_facts_fire_twice (u : User) (l : InputLocation) (v : Vacancy)
    (h : ruleMatches u l v = true) :
    engineRun [EFact.user u, EFact.loc l, EFact.vac v, EFact.vac v] =
      .ok [EFact.user u, EFact.loc l, EFact.vac v, EFact.vac v,
           EFact.answer (answerOf v), EFact.answer (answerOf v)] ∧
    firedAnswers [EFact.user u, EFact.loc l, EFact.vac v, EFact.vac v] =
      .ok [answerOf v, answerOf v] := by
  have hact : activations [EFact.user u, EFact.loc l, EFact.vac v, EFact.vac v]
      = [answerOf v, answerOf v] := by
    simp [activations, usersOf, locsOf, vacsOf, List.filterMap_cons,
      getUser, getLoc, getVac, h]
  have hlen : (activations [EFact.user u, EFact.loc l, EFact.vac v, EFact.vac v]).length - 0
      ≤ ENGINE_CEILING := by
    rw [hact]; show 2 - 0 ≤ ENGINE_CEILING; decide
  have hlen2 : (activations [EFact.user u, EFact.loc l, EFact.vac v, EFact.vac v]).length
      ≤ ENGINE_CEILING := by
    rw [hact]; show 2 ≤ ENGINE_CEILING; decide
  constructor
  · rw [engineRun, fireLoop_ok ENGINE_CEILING _ 0 hlen]
    rw [hact]
    rfl
  · rw [firedAnswers_ok _ hlen2, hact]

/-- Witness for C6 at a concrete matching combination. -/
theorem c6_witness :
    ruleMatches ⟨150000⟩ ⟨"Москва"⟩ ⟨"p", "c", "Москва", 100000, 200000⟩ = true ∧
    engineRun [EFact.user ⟨150000⟩, EFact.loc ⟨"Москва"⟩,
        EFact.vac ⟨"p", "c", "Москва", 100000, 200000⟩,
        EFact.vac ⟨"p", "c", "Москва", 100000, 200000⟩] =
      .ok [EFact.user ⟨150000⟩, EFact.loc ⟨"Москва"⟩,
        EFact.vac ⟨"p", "c", "Москва", 100000, 200000⟩,
        EFact.vac ⟨"p", "c", "Москва", 100000, 200000⟩,
        EFact.answer (answerOf ⟨"p", "c", "Москва", 100000, 200000⟩),
        EFact.answer (answerOf ⟨"p", "c", "Москва", 100000, 200000⟩)] ∧
    firedAnswers [EFact.user ⟨150000⟩, EFact.loc ⟨"Москва"⟩,
        EFact.vac ⟨"p", "c", "Москва", 100000, 200000⟩,
        EFact.vac ⟨"p", "c", "Москва", 100000, 200000⟩] =
      .ok [answerOf ⟨"p", "c", "Москва", 100000, 200000⟩,
        answerOf ⟨"p", "c", "Москва", 100000, 200000⟩] := by
  have h := c6_duplicate_facts_fire_twice ⟨150000⟩ ⟨"Москва"⟩
    ⟨"p", "c", "Москва", 100000, 200000⟩ (by decide)
  exact ⟨by decide, h.1, h.2⟩

/-- Claim C7: declaring the same finite multiset of facts in any
permutation and running the engine to fixpoint yields the same final
multiset of answer facts (emission order may differ, the set may not). -/
theorem c7_declaration_order_independent (wm wm' : List EFact)
    (hp : wm.Perm wm') (h : (activations wm).length ≤ ENGINE_CEILING) :
    firedAnswers wm = .ok (activations wm) ∧
    firedAnswers wm' = .ok (activations wm') ∧
    (activations wm).Perm (activations wm') := by
  have hlen : (activations wm').length ≤ ENGINE_CEILING := by
    rw [← (activations_perm hp).length_eq]
    exact h
  exact ⟨firedAnswers_ok wm h, firedAnswers_ok wm' hlen, activations_perm hp⟩

/-- Witness for C7: the scenario memory against its reversal. -/
theorem c7_witness :
    scenarioWM.Perm scenarioWM.reverse ∧
    (activations scenarioWM).length ≤ ENGINE_CEILING ∧
    (firedAnswers scenarioWM = .ok (activations scenarioWM) ∧
     firedAnswers scenarioWM.reverse = .ok (activations scenarioWM.reverse) ∧
     (activations scenarioWM).Perm (activations scenarioWM.reverse)) :=
  ⟨by decide, by decide,
    c7_declaration_order_independent scenarioWM scenarioWM.reverse (by decide) (by decide)⟩

/-- Claim C8: when the upstream HTTP call fails with a request exception,
`find_jobs` aborts with HTTP 500 before any fact is declared: the fact
store never receives a fact. -/
theorem c8_upstream_failure_aborts_before_facts (req : JobSearchRequest) :
    (findJobsTrace req .fail).result = .error .http500 ∧
    (findJobsTrace req .fail).facts = [] :=
  ⟨rfl, rfl⟩

/-- Claim C9: the `InputLocation` fact is declared with the fixed value
`"Москва"` for every request body — exactly one such fact whenever the
declaration phase is reached, none otherwise — and every element of any
list the endpoint returns has location `"Москва"`. -/
theorem c9_location_fixed_moscow (req : JobSearchRequest) (up : Upstream) :
    (findJobsTrace req up).facts.all locFactOk = true ∧
    (findJobsTrace req up).facts.countP isLocFact
      = (if reachesDeclare up then 1 else 0) ∧
    resultAll (fun r => r.location == "Москва") (findJobsTrace req up).result = true := by
  cases up with
  | fail => exact ⟨rfl, rfl, rfl⟩
  | ok resp =>
    obtain ⟨items⟩ := resp
    cases items with
    | none => exact ⟨rfl, rfl, rfl⟩
    | some items =>
      cases items with
      | nil => exact ⟨rfl, rfl, rfl⟩
      | cons it0 rest =>
        refine ⟨?_, ?_, ?_⟩
        · rw [findJobs_facts, List.all_append, vac_facts_all_locFactOk]
          rfl
        · rw [findJobs_facts, List.countP_append, vac_facts_countP_isLocFact]
          rfl
        · rw [findJobs_nonempty_result]
          rfl

/-- Claim C10: every element of a list returned by `find_jobs` has
currency `"RUR"` and an empty link, for every request and upstream
response; the response constructor fixes both fields. -/
theorem c10_currency_rur_link_empty (req : JobSearchRequest) (up : Upstream)
    (a : DynAnswer) :
    resultAll (fun r => r.currency == "RUR" && r.link == "")
      (findJobsTrace req up).result = true ∧
    buildRespConstOk a = true := by
  constructor
  · cases up with
    | fail => rfl
    | ok resp =>
      obtain ⟨items⟩ := resp
      cases items with
      | none => rfl
      | some items =>
        cases items with
        | nil => rfl
        | cons it0 rest =>
          rw [findJobs_nonempty_result]
          rfl
  · obtain ⟨p, c, l, f, t⟩ := a
    cases p <;> cases c <;> cases l <;> rfl
